import Mathlib

/-!
Verification of the manifest reconstruction core of the synaptic-canvas CLI.

The repository contains the `models` package in several drafts.  The two
complete drafts of the builder are embedded here:

* `BuildManifest` — the draft in `src/pkg/models/manifest.go` (rich
  `ManifestFile` artifact entries, generic pluralization fallback for file
  types missing from the plural-key table, unguarded assignment of parsed
  choice lists), paired with the comma-separated `TagsList`/`ChoicesList`
  normalizers of the matching `package.go` draft.

* `BuildManifestD` — the draft whose artifact groups hold bare destination
  paths, whose plural-key table omits `config`, which skips file types
  missing from the table, and which assigns a question's choices only when
  the parsed list is non-empty.

Go slices distinguish `nil` from empty; where the code relies on that
distinction (artifacts map, question choices, parsed JSON maps) the field is
modelled as an `Option`.  `json.Unmarshal` belongs to the Go standard
library, not to this repository, so it is abstracted as a parameter of type
`Unmarshal`; a `json.RawMessage` is modelled as a `String` (length zero
meaning nil/empty).  `strings.TrimSpace` and `strings.Split` are modelled
by the structurally recursive `trimSpace` and `splitComma` below.
-/

set_option autoImplicit false

deriving instance DecidableEq for Except

namespace SynapticCanvas

/-- Opaque result of decoding a JSON blob into a Go `map[string]any`.  The
builder never inspects decoded values, only stores them, so the decoded
value is modelled as an opaque wrapper around the raw text. -/
structure JsonMap where
  raw : String
  deriving DecidableEq

/-- The external JSON decoder (`encoding/json.Unmarshal`), abstracted as a
parameter: it either yields a decoded value or an error message. -/
def Unmarshal : Type := String → Except String JsonMap

/-- A row of the `packages` table.  Fields are the union of the fields the
two embedded builder drafts read; `variables` and `options` are
`json.RawMessage` blobs. -/
structure Package where
  id : String
  name : String
  version : String
  description : Option String
  agentVariant : String
  author : Option String
  license : Option String
  tags : String
  installScope : String
  vars : String
  options : String
  minClaudeVer : Option String
  sha256 : String
  deriving DecidableEq

/-- A row of the `package_files` table. -/
structure PackageFile where
  packageID : String
  destPath : String
  content : String
  sha256 : String
  fileType : String
  contentType : String
  isTemplate : Bool
  frontmatter : String
  deriving DecidableEq

/-- A row of the `package_deps` table. -/
structure PackageDep where
  packageID : String
  depType : String
  depName : String
  depSpec : String
  installCmd : String
  cmdSha256 : String
  deriving DecidableEq

/-- A row of the `package_hooks` table. -/
structure PackageHook where
  packageID : String
  event : String
  matcher : String
  scriptPath : String
  priority : Int
  blocking : Bool
  deriving DecidableEq

/-- A row of the `package_questions` table. -/
structure PackageQuestion where
  packageID : String
  questionID : String
  prompt : String
  qtype : String
  defaultVal : String
  choices : String
  sortOrder : Int
  deriving DecidableEq

/-- `FileType` constant `skill`. -/
def FileTypeSkill : String := "skill"

/-- `FileType` constant `agent`. -/
def FileTypeAgent : String := "agent"

/-- `FileType` constant `command`. -/
def FileTypeCommand : String := "command"

/-- `FileType` constant `script`. -/
def FileTypeScript : String := "script"

/-- `FileType` constant `hook`. -/
def FileTypeHook : String := "hook"

/-- `FileType` constant `config`. -/
def FileTypeConfig : String := "config"

/-- `DepType` constant `tool`. -/
def DepTypeTool : String := "tool"

/-- Go `unicode.IsSpace` over the Latin-1 range (space, tab, newline,
vertical tab, form feed, carriage return, next line, no-break space),
which is the whitespace `strings.TrimSpace` strips on the inputs modelled
here. -/
def isSpaceChar (c : Char) : Bool :=
  c == Char.ofNat 32 || c == Char.ofNat 9 || c == Char.ofNat 10 || c == Char.ofNat 11 ||
  c == Char.ofNat 12 || c == Char.ofNat 13 || c == Char.ofNat 133 || c == Char.ofNat 160

/-- Go `strings.TrimSpace`: drop leading and trailing whitespace. -/
def trimSpace (s : String) : String :=
  ⟨((s.data.dropWhile isSpaceChar).reverse.dropWhile isSpaceChar).reverse⟩

/-- Go `strings.Split(s, ",")` at the character level: always one more
piece than there are commas, so the empty input gives one empty piece. -/
def splitCommaList : List Char → List (List Char)
  | [] => [[]]
  | c :: rest =>
    let r := splitCommaList rest
    if c = Char.ofNat 44 then [] :: r
    else
      match r with
      | [] => [[c]]
      | g :: gs => (c :: g) :: gs

/-- Go `strings.Split(s, ",")`. -/
def splitComma (s : String) : List String :=
  (splitCommaList s.data).map (fun l => ⟨l⟩)

/-- `TagsList` splits the comma-separated `tags` field into a string slice,
trimming whitespace around each element and dropping elements that become
empty.  Returns an empty slice if `tags` is empty.  Translated from the
comma-separated draft of `package.go`. -/
def Package.TagsList (p : Package) : List String :=
  if p.tags = "" then []
  else
    (splitComma p.tags).foldl
      (fun result t =>
        let t2 := trimSpace t
        if t2 ≠ "" then result ++ [t2] else result) []

/-- `ChoicesList` splits the comma-separated `choices` field into a string
slice, trimming whitespace around each element and dropping elements that
become empty.  Returns an empty slice if `choices` is empty.  Translated
from the comma-separated draft of `package.go`. -/
def PackageQuestion.ChoicesList (q : PackageQuestion) : List String :=
  if q.choices = "" then []
  else
    (splitComma q.choices).foldl
      (fun result c =>
        let c2 := trimSpace c
        if c2 ≠ "" then result ++ [c2] else result) []

/-- The file entry within a manifest artifacts group (rich draft).  The raw
file `content` is deliberately not a field. -/
structure ManifestFile where
  destPath : String
  sha256 : String
  fileType : String
  contentType : String
  isTemplate : Bool
  frontmatter : Option JsonMap
  deriving DecidableEq

/-- The hook entry within a manifest. -/
structure ManifestHook where
  event : String
  matcher : String
  scriptPath : String
  priority : Int
  blocking : Bool
  deriving DecidableEq

/-- The question entry within a manifest.  `choices` is a Go `[]string`
whose nil-ness is significant under `omitempty`, hence an `Option`. -/
structure ManifestQuestion where
  questionID : String
  prompt : String
  qtype : String
  defaultVal : String
  choices : Option (List String)
  sortOrder : Int
  deriving DecidableEq

/-- The manifest of the rich draft (`manifest.go`).  Optional scalar fields
keep Go's zero value `""` when their source is absent; `variables`,
`options` and `artifacts` distinguish nil from present. -/
structure Manifest where
  id : String
  name : String
  version : String
  description : String
  agentVariant : String
  author : String
  license : String
  tags : List String
  installScope : String
  vars : Option JsonMap
  options : Option JsonMap
  sha256 : String
  artifacts : Option (List (String × List ManifestFile))
  requires : List String
  hooks : List ManifestHook
  questions : List ManifestQuestion
  deriving DecidableEq

/-- The manifest of the destination-path draft: artifact groups hold bare
`dest_path` strings and the struct carries `min_claude_version` instead of
`agent_variant`. -/
structure ManifestD where
  id : String
  name : String
  version : String
  description : String
  author : String
  license : String
  tags : List String
  minClaudeVersion : String
  installScope : String
  vars : Option JsonMap
  options : Option JsonMap
  sha256 : String
  artifacts : Option (List (String × List String))
  requires : List String
  hooks : List ManifestHook
  questions : List ManifestQuestion
  deriving DecidableEq

/-- Lookup in a literal Go map with string keys, modelled as an association
list (the tables below have pairwise distinct keys). -/
def lookupKey : List (String × String) → String → Option String
  | [], _ => none
  | (k, v) :: rest, t => if k = t then some v else lookupKey rest t

/-- `fileTypePluralKey` of the rich draft: maps a `FileType` to the
pluralized key used in the manifest artifacts map; `config` is included. -/
def fileTypePluralKey : List (String × String) :=
  [(FileTypeSkill, "skills"), (FileTypeAgent, "agents"),
   (FileTypeCommand, "commands"), (FileTypeScript, "scripts"),
   (FileTypeHook, "hooks"), (FileTypeConfig, "configs")]

/-- `fileTypePluralKey` of the destination-path draft: `config` is
intentionally excluded (config files are written as `plugin.json` by the
export pipeline and are not part of the artifacts grouping). -/
def fileTypePluralKeyD : List (String × String) :=
  [(FileTypeSkill, "skills"), (FileTypeAgent, "agents"),
   (FileTypeCommand, "commands"), (FileTypeScript, "scripts"),
   (FileTypeHook, "hooks")]

/-- The group key the rich draft assigns to a file type: the plural-key
table entry when present, otherwise the generic fallback `type + "s"`. -/
def artifactKey (t : String) : String :=
  match lookupKey fileTypePluralKey t with
  | some k => k
  | none => t ++ "s"

/-- `m.Artifacts[key] = append(m.Artifacts[key], v)` on a Go map modelled
as an insertion-ordered association list: append to the existing group, or
create the group when the key is absent. -/
def groupAppend {α : Type} : List (String × List α) → String → α → List (String × List α)
  | [], key, v => [(key, [v])]
  | (k, vs) :: rest, key, v =>
    if k = key then (k, vs ++ [v]) :: rest else (k, vs) :: groupAppend rest key v

/-- Reading `m[key]` from the modelled map; a missing key reads as the nil
slice, i.e. the empty list. -/
def groupGet {α : Type} : List (String × List α) → String → List α
  | [], _ => []
  | (k, vs) :: rest, key => if k = key then vs else groupGet rest key

/-- The guarded JSON-field parse shared by `variables` and `options`:
skipped when the blob is empty or the literal `null`, otherwise decoded,
wrapping a decode error as
`building manifest: parsing <field>: <cause>`. -/
def parseJsonField (um : Unmarshal) (raw : String) (field : String) :
    Except String (Option JsonMap) :=
  if raw ≠ "" ∧ raw ≠ "null" then
    match um raw with
    | .error e => .error ("building manifest: parsing " ++ field ++ ": " ++ e)
    | .ok v => .ok (some v)
  else .ok none

/-- One iteration of the rich draft's files loop: build the `ManifestFile`
entry, decoding frontmatter under the same empty/`null` guard, wrapping a
decode error as
`building manifest: parsing frontmatter for <dest_path>: <cause>`. -/
def mkManifestFile (um : Unmarshal) (f : PackageFile) : Except String ManifestFile :=
  let mf : ManifestFile :=
    { destPath := f.destPath, sha256 := f.sha256, fileType := f.fileType,
      contentType := f.contentType, isTemplate := f.isTemplate,
      frontmatter := none }
  if f.frontmatter ≠ "" ∧ f.frontmatter ≠ "null" then
    match um f.frontmatter with
    | .error e =>
      .error ("building manifest: parsing frontmatter for " ++ f.destPath ++ ": " ++ e)
    | .ok v => .ok { mf with frontmatter := some v }
  else .ok mf

/-- The rich draft's files loop: group entries by `artifactKey`, aborting
on the first frontmatter decode failure. -/
def buildArtifacts (um : Unmarshal) :
    List PackageFile → List (String × List ManifestFile) →
    Except String (List (String × List ManifestFile))
  | [], acc => .ok acc
  | f :: rest, acc =>
    match mkManifestFile um f with
    | .error e => .error e
    | .ok mf => buildArtifacts um rest (groupAppend acc (artifactKey f.fileType) mf)

/-- The destination-path draft's files loop: group bare `dest_path` strings
by the table key, silently skipping file types absent from the table. -/
def buildArtifactsD (files : List PackageFile) : List (String × List String) :=
  files.foldl
    (fun acc f =>
      match lookupKey fileTypePluralKeyD f.fileType with
      | none => acc
      | some key => groupAppend acc key f.destPath) []

/-- One requirement entry: the dependency name alone when the trimmed
version spec is empty, otherwise name, one space, trimmed spec. -/
def fmtRequirement (d : PackageDep) : String :=
  let spec := trimSpace d.depSpec
  if spec ≠ "" then d.depName ++ " " ++ spec else d.depName

/-- The requires loop shared by both drafts: keep only `tool` dependencies,
formatted by `fmtRequirement`, in input order. -/
def buildRequires (deps : List PackageDep) : List String :=
  deps.foldl
    (fun acc d => if d.depType = DepTypeTool then acc ++ [fmtRequirement d] else acc) []

/-- The hooks loop shared by both drafts: verbatim copy, in input order. -/
def buildHooks (hooks : List PackageHook) : List ManifestHook :=
  hooks.map (fun h =>
    { event := h.event, matcher := h.matcher, scriptPath := h.scriptPath,
      priority := h.priority, blocking := h.blocking })

/-- The questions loop of the rich draft: the parsed choice list is
assigned unconditionally (`mq.Choices = q.ChoicesList()`), and
`ChoicesList` always returns a non-nil slice, so `choices` is always
present. -/
def buildQuestions (questions : List PackageQuestion) : List ManifestQuestion :=
  questions.map (fun q =>
    { questionID := q.questionID, prompt := q.prompt, qtype := q.qtype,
      defaultVal := q.defaultVal, choices := some q.ChoicesList,
      sortOrder := q.sortOrder })

/-- The questions loop of the destination-path draft: the parsed choice
list is assigned only when non-empty (`if len(choices) > 0`), leaving the
field nil otherwise. -/
def buildQuestionsD (questions : List PackageQuestion) : List ManifestQuestion :=
  questions.map (fun q =>
    { questionID := q.questionID, prompt := q.prompt, qtype := q.qtype,
      defaultVal := q.defaultVal,
      choices := if q.ChoicesList = [] then none else some q.ChoicesList,
      sortOrder := q.sortOrder })

/-- `BuildManifest` of the rich draft (`manifest.go`): reconstructs a
`Manifest` from a `Package` and its related rows.  Returns
`building manifest: package is nil` when the package is absent; omits
`install_scope` when it equals `"any"`; decodes `variables`, `options` and
per-file frontmatter, aborting the whole build on the first failure;
groups files by pluralized file-type key with the generic fallback;
formats `tool` dependencies into `requires`; copies hooks verbatim;
copies questions with an unconditional choices assignment. -/
def BuildManifest (um : Unmarshal) (pkg : Option Package)
    (files : List PackageFile) (deps : List PackageDep)
    (hooks : List PackageHook) (questions : List PackageQuestion) :
    Except String Manifest :=
  match pkg with
  | none => .error "building manifest: package is nil"
  | some p =>
    match parseJsonField um p.vars "variables" with
    | .error e => .error e
    | .ok vars =>
      match parseJsonField um p.options "options" with
      | .error e => .error e
      | .ok opts =>
        match buildArtifacts um files [] with
        | .error e => .error e
        | .ok arts =>
          .ok
            { id := p.id, name := p.name, version := p.version,
              description := p.description.getD "",
              agentVariant := p.agentVariant,
              author := p.author.getD "",
              license := p.license.getD "",
              tags := p.TagsList,
              installScope := if p.installScope ≠ "any" then p.installScope else "",
              vars := vars, options := opts, sha256 := p.sha256,
              artifacts := if files = [] then none else some arts,
              requires := buildRequires deps,
              hooks := buildHooks hooks,
              questions := buildQuestions questions }

/-- `BuildManifest` of the destination-path draft: artifact groups hold
bare destination paths, file types absent from the (config-free) table are
skipped, `min_claude_version` is carried, and a question's choices field is
set only when the parsed list is non-empty.  Frontmatter is not decoded in
this draft. -/
def BuildManifestD (um : Unmarshal) (pkg : Option Package)
    (files : List PackageFile) (deps : List PackageDep)
    (hooks : List PackageHook) (questions : List PackageQuestion) :
    Except String ManifestD :=
  match pkg with
  | none => .error "building manifest: package is nil"
  | some p =>
    match parseJsonField um p.vars "variables" with
    | .error e => .error e
    | .ok vars =>
      match parseJsonField um p.options "options" with
      | .error e => .error e
      | .ok opts =>
        .ok
          { id := p.id, name := p.name, version := p.version,
            description := p.description.getD "",
            author := p.author.getD "",
            license := p.license.getD "",
            tags := p.TagsList,
            minClaudeVersion := p.minClaudeVer.getD "",
            installScope := if p.installScope ≠ "any" then p.installScope else "",
            vars := vars, options := opts, sha256 := p.sha256,
            artifacts := if files = [] then none else some (buildArtifactsD files),
            requires := buildRequires deps,
            hooks := buildHooks hooks,
            questions := buildQuestionsD questions }

/-- Spec-side rendering of the comma convention: split on commas, trim
surrounding whitespace from each element, drop elements that become empty
after trimming, preserve the order of the rest. -/
def specSplitTrimDrop (raw : String) : List String :=
  ((splitComma raw).map trimSpace).filter (fun s => s ≠ "")

/-- Spec-side rendering of the requirements rule: exactly the entries whose
dependency type is `tool`, in input order, each formatted as name alone or
name, one space, trimmed spec. -/
def specRequires (deps : List PackageDep) : List String :=
  (deps.filter (fun d => d.depType = DepTypeTool)).map fmtRequirement

/-- The `ManifestFile` entry that the rich draft's files loop produces for
`f` whenever its frontmatter decodes successfully (closed-form description
of `mkManifestFile` on its success path). -/
def mfOf (um : Unmarshal) (f : PackageFile) : ManifestFile :=
  { destPath := f.destPath, sha256 := f.sha256, fileType := f.fileType,
    contentType := f.contentType, isTemplate := f.isTemplate,
    frontmatter :=
      if f.frontmatter ≠ "" ∧ f.frontmatter ≠ "null" then (um f.frontmatter).toOption
      else none }

/-- Two file rows that agree on every field except the raw `content`. -/
def SameExceptContent (f g : PackageFile) : Prop :=
  f.packageID = g.packageID ∧ f.destPath = g.destPath ∧ f.sha256 = g.sha256 ∧
  f.fileType = g.fileType ∧ f.contentType = g.contentType ∧
  f.isTemplate = g.isTemplate ∧ f.frontmatter = g.frontmatter

/-! Concrete fixtures used by witnesses and counterexamples. -/

/-- A decoder that accepts every blob (wrapping it opaquely). -/
def umOk : Unmarshal := fun s => .ok ⟨s⟩

/-- A decoder that rejects every blob with the message `boom`. -/
def umFail : Unmarshal := fun _ => .error "boom"

/-- A minimal package row. -/
def basePackage : Package :=
  { id := "pkg-1", name := "test", version := "1.0.0", description := none,
    agentVariant := "", author := none, license := none, tags := "",
    installScope := "any", vars := "", options := "", minClaudeVer := none,
    sha256 := "" }

/-- A skill file row. -/
def skillFile : PackageFile :=
  { packageID := "pkg-1", destPath := "skill.md", content := "skill body",
    sha256 := "h1", fileType := "skill", contentType := "markdown",
    isTemplate := false, frontmatter := "" }

/-- An agent file row. -/
def agentFile : PackageFile :=
  { packageID := "pkg-1", destPath := "agent.md", content := "agent body",
    sha256 := "h2", fileType := "agent", contentType := "markdown",
    isTemplate := false, frontmatter := "" }

/-- A config file row. -/
def configFile : PackageFile :=
  { packageID := "pkg-1", destPath := "config.json", content := "cfg body",
    sha256 := "h3", fileType := "config", contentType := "json",
    isTemplate := false, frontmatter := "" }

/-- A tool dependency with a version spec. -/
def depToolX : PackageDep :=
  { packageID := "pkg-1", depType := "tool", depName := "tool-x",
    depSpec := ">=1.0.0", installCmd := "", cmdSha256 := "" }

/-- A tool dependency with an empty version spec. -/
def depToolY : PackageDep :=
  { packageID := "pkg-1", depType := "tool", depName := "tool-y",
    depSpec := "", installCmd := "", cmdSha256 := "" }

/-- A non-tool dependency. -/
def depCliZ : PackageDep :=
  { packageID := "pkg-1", depType := "cli", depName := "cli-z",
    depSpec := "^2.0", installCmd := "", cmdSha256 := "" }

/-- A question with a non-empty comma-separated choice list. -/
def questionQ1 : PackageQuestion :=
  { packageID := "pkg-1", questionID := "q1", prompt := "Speed?",
    qtype := "choice", defaultVal := "fast", choices := "fast,slow",
    sortOrder := 1 }

/-- A question with an empty choice list. -/
def questionQ2 : PackageQuestion :=
  { packageID := "pkg-1", questionID := "q2", prompt := "Name?",
    qtype := "text", defaultVal := "", choices := "", sortOrder := 2 }

/-- `basePackage` with a variables blob (the blob's content is irrelevant;
the failing decoder is what matters). -/
def pkgBadVars : Package := { basePackage with vars := "oops" }

/-- `basePackage` with a comma-separated tags field. -/
def pkgTags : Package := { basePackage with tags := "go , cli ,tool," }

/-- `skillFile` with different raw content and every other field equal. -/
def skillFileAlt : PackageFile := { skillFile with content := "another body" }

/-- The manifest built from `basePackage` alone. -/
def manifestBase : Manifest :=
  { id := "pkg-1", name := "test", version := "1.0.0", description := "",
    agentVariant := "", author := "", license := "", tags := [],
    installScope := "", vars := none, options := none, sha256 := "",
    artifacts := none, requires := [], hooks := [], questions := [] }

/-- The manifest entry the rich draft produces for `skillFile`. -/
def skillEntry : ManifestFile :=
  { destPath := "skill.md", sha256 := "h1", fileType := "skill",
    contentType := "markdown", isTemplate := false, frontmatter := none }

/-- The manifest entry the rich draft produces for `agentFile`. -/
def agentEntry : ManifestFile :=
  { destPath := "agent.md", sha256 := "h2", fileType := "agent",
    contentType := "markdown", isTemplate := false, frontmatter := none }

/-- The manifest entry the rich draft produces for `configFile`. -/
def configEntry : ManifestFile :=
  { destPath := "config.json", sha256 := "h3", fileType := "config",
    contentType := "json", isTemplate := false, frontmatter := none }

/-- The manifest built from `basePackage` and the three file fixtures. -/
def manifestFiles : Manifest :=
  { manifestBase with
    artifacts := some
      [("skills", [skillEntry]), ("agents", [agentEntry]),
       ("configs", [configEntry])] }

/-- The manifest built from `basePackage` and the three dependency
fixtures. -/
def manifestDeps : Manifest :=
  { manifestBase with requires := ["tool-x >=1.0.0", "tool-y"] }

/-- The manifest built from `basePackage` and the two question fixtures. -/
def manifestQ : Manifest :=
  { manifestBase with
    questions :=
      [{ questionID := "q1", prompt := "Speed?", qtype := "choice",
         defaultVal := "fast", choices := some ["fast", "slow"], sortOrder := 1 },
       { questionID := "q2", prompt := "Name?", qtype := "text",
         defaultVal := "", choices := some [], sortOrder := 2 }] }

/-- The destination-path-draft manifest built from `basePackage` and the
two question fixtures. -/
def manifestQD : ManifestD :=
  { id := "pkg-1", name := "test", version := "1.0.0", description := "",
    author := "", license := "", tags := [], minClaudeVersion := "",
    installScope := "", vars := none, options := none, sha256 := "",
    artifacts := none, requires := [], hooks := [],
    questions :=
      [{ questionID := "q1", prompt := "Speed?", qtype := "choice",
         defaultVal := "fast", choices := some ["fast", "slow"], sortOrder := 1 },
       { questionID := "q2", prompt := "Name?", qtype := "text",
         defaultVal := "", choices := none, sortOrder := 2 }] }

/-! Helper lemmas. -/

/-- The accumulator loop of the comma normalizers equals trim-map followed
by dropping newly empty elements. -/
theorem foldl_trim_eq (l : List String) : ∀ acc : List String,
    l.foldl
      (fun result t =>
        let t2 := trimSpace t
        if t2 ≠ "" then result ++ [t2] else result) acc
      = acc ++ (l.map trimSpace).filter (fun s => s ≠ "") := by
  induction l with
  | nil => intro acc; simp
  | cons t rest ih =>
    intro acc
    rw [List.foldl_cons]
    by_cases h : trimSpace t = ""
    · have hstep :
          (let t2 := trimSpace t
           if t2 ≠ "" then acc ++ [t2] else acc) = acc := by
        simp [h]
      rw [hstep, ih acc, List.map_cons, List.filter_cons]
      simp [h]
    · have hstep :
          (let t2 := trimSpace t
           if t2 ≠ "" then acc ++ [t2] else acc) = acc ++ [trimSpace t] := by
        simp [h]
      rw [hstep, ih (acc ++ [trimSpace t]), List.map_cons, List.filter_cons]
      simp [h, List.append_assoc]

/-- The requirements loop equals filtering to tool dependencies and
formatting each, in order. -/
theorem buildRequires_eq (deps : List PackageDep) :
    buildRequires deps = specRequires deps := by
  unfold buildRequires specRequires
  suffices h : ∀ acc : List String,
      deps.foldl
        (fun acc d => if d.depType = DepTypeTool then acc ++ [fmtRequirement d] else acc) acc
        = acc ++ (deps.filter (fun d => d.depType = DepTypeTool)).map fmtRequirement by
    simpa using h []
  induction deps with
  | nil => intro acc; simp
  | cons d rest ih =>
    intro acc
    by_cases h : d.depType = DepTypeTool <;>
      simp [List.foldl_cons, h, ih, List.filter_cons]

/-- Appending one value to a group touches only that group's list and
appends the value at its end. -/
theorem groupGet_groupAppend {α : Type} (m : List (String × List α)) (key : String)
    (v : α) (k : String) :
    groupGet (groupAppend m key v) k
      = groupGet m k ++ (if k = key then [v] else []) := by
  induction m with
  | nil =>
    by_cases h : k = key
    · subst h; simp [groupAppend, groupGet]
    · have h2 : ¬ key = k := fun hh => h hh.symm
      simp [groupAppend, groupGet, h, h2]
  | cons p rest ih =>
    obtain ⟨k0, vs⟩ := p
    by_cases h0 : k0 = key
    · subst h0
      by_cases h : k0 = k
      · subst h; simp [groupAppend, groupGet]
      · have h2 : ¬ k = k0 := fun hh => h hh.symm
        simp [groupAppend, groupGet, h, h2]
    · by_cases h : k0 = k
      · subst h
        simp [groupAppend, groupGet, h0]
      · simp [groupAppend, groupGet, h0, h, ih]

/-- On every input the rich draft's group key is the file type with `s`
appended: the six table entries are exactly their own generic
pluralizations, and everything else takes the fallback. -/
theorem artifactKey_eq (s : String) : artifactKey s = s ++ "s" := by
  by_cases h1 : "skill" = s
  · subst h1; decide
  by_cases h2 : "agent" = s
  · subst h2; decide
  by_cases h3 : "command" = s
  · subst h3; decide
  by_cases h4 : "script" = s
  · subst h4; decide
  by_cases h5 : "hook" = s
  · subst h5; decide
  by_cases h6 : "config" = s
  · subst h6; decide
  simp [artifactKey, lookupKey, fileTypePluralKey, FileTypeSkill, FileTypeAgent,
    FileTypeCommand, FileTypeScript, FileTypeHook, FileTypeConfig,
    h1, h2, h3, h4, h5, h6]

/-- Appending the letter `s` to a string is injective. -/
theorem append_s_cancel {s t : String} (h : s ++ "s" = t ++ "s") : s = t := by
  apply String.ext
  have h2 := congrArg String.data h
  rw [String.data_append, String.data_append] at h2
  exact List.append_cancel_right h2

/-- Distinct file types take distinct group keys in the rich draft. -/
theorem artifactKey_inj {s t : String} (h : artifactKey s = artifactKey t) : s = t := by
  rw [artifactKey_eq, artifactKey_eq] at h
  exact append_s_cancel h

/-- A successful `mkManifestFile` yields exactly the closed-form entry. -/
theorem mkManifestFile_ok {um : Unmarshal} {f : PackageFile} {mf : ManifestFile}
    (h : mkManifestFile um f = .ok mf) : mf = mfOf um f := by
  simp only [mkManifestFile] at h
  unfold mfOf
  by_cases hg : f.frontmatter ≠ "" ∧ f.frontmatter ≠ "null"
  · rw [if_pos hg] at h
    rw [if_pos hg]
    cases hum : um f.frontmatter with
    | error e => rw [hum] at h; cases h
    | ok v =>
      rw [hum] at h
      cases h
      simp [Except.toOption, hum]
  · rw [if_neg hg] at h
    rw [if_neg hg]
    cases h
    rfl

/-- Success-path characterization of the rich draft's files loop: each
group holds exactly the entries of the files taking that key, in input
order, appended after whatever the accumulator already held. -/
theorem buildArtifacts_get (um : Unmarshal) :
    ∀ (files : List PackageFile) (acc A : List (String × List ManifestFile)),
      buildArtifacts um files acc = .ok A →
      ∀ k, groupGet A k
        = groupGet acc k
          ++ (files.filter (fun f => artifactKey f.fileType = k)).map (mfOf um) := by
  intro files
  induction files with
  | nil =>
    intro acc A h k
    unfold buildArtifacts at h
    cases h
    simp
  | cons f rest ih =>
    intro acc A h k
    unfold buildArtifacts at h
    cases hmk : mkManifestFile um f with
    | error e => rw [hmk] at h; cases h
    | ok mf =>
      rw [hmk] at h
      have hrec := ih _ _ h k
      rw [hrec, groupGet_groupAppend, mkManifestFile_ok hmk]
      by_cases hk : artifactKey f.fileType = k
      · simp [List.filter_cons, hk, List.append_assoc]
      · have : ¬ k = artifactKey f.fileType := fun hh => hk hh.symm
        simp [List.filter_cons, hk, this]

/-- The rich draft's files loop aborts with the first file whose
frontmatter fails to decode, provided every earlier file decodes. -/
theorem buildArtifacts_error (um : Unmarshal) :
    ∀ (pre : List PackageFile) (f : PackageFile) (post : List PackageFile)
      (acc : List (String × List ManifestFile)) (e : String),
      (∀ g ∈ pre, ∃ mf, mkManifestFile um g = .ok mf) →
      mkManifestFile um f = .error e →
      buildArtifacts um (pre ++ f :: post) acc = .error e := by
  intro pre
  induction pre with
  | nil =>
    intro f post acc e _ hf
    show buildArtifacts um (f :: post) acc = .error e
    unfold buildArtifacts
    rw [hf]
  | cons g pre ih =>
    intro f post acc e hpre hf
    obtain ⟨mf, hg⟩ := hpre g (List.mem_cons_self g pre)
    have hrest : ∀ g2 ∈ pre, ∃ mf2, mkManifestFile um g2 = .ok mf2 := by
      intro g2 hg2
      exact hpre g2 (List.mem_cons_of_mem g hg2)
    show buildArtifacts um (g :: (pre ++ f :: post)) acc = .error e
    unfold buildArtifacts
    rw [hg]
    exact ih f post _ e hrest hf

/-- Inversion of a successful rich-draft build: both JSON fields and the
files loop succeed, and the manifest is the record the builder assembles
from their results. -/
theorem buildManifest_ok_elim {um : Unmarshal} {p : Package}
    {files : List PackageFile} {deps : List PackageDep}
    {hooks : List PackageHook} {questions : List PackageQuestion} {m : Manifest}
    (h : BuildManifest um (some p) files deps hooks questions = .ok m) :
    ∃ vars opts arts,
      parseJsonField um p.vars "variables" = .ok vars ∧
      parseJsonField um p.options "options" = .ok opts ∧
      buildArtifacts um files [] = .ok arts ∧
      m = { id := p.id, name := p.name, version := p.version,
            description := p.description.getD "",
            agentVariant := p.agentVariant,
            author := p.author.getD "", license := p.license.getD "",
            tags := p.TagsList,
            installScope := if p.installScope ≠ "any" then p.installScope else "",
            vars := vars, options := opts, sha256 := p.sha256,
            artifacts := if files = [] then none else some arts,
            requires := buildRequires deps, hooks := buildHooks hooks,
            questions := buildQuestions questions } := by
  simp only [BuildManifest] at h
  cases hv : parseJsonField um p.vars "variables" with
  | error e => rw [hv] at h; cases h
  | ok vars =>
    rw [hv] at h
    cases ho : parseJsonField um p.options "options" with
    | error e => rw [ho] at h; cases h
    | ok opts =>
      rw [ho] at h
      cases ha : buildArtifacts um files [] with
      | error e => rw [ha] at h; cases h
      | ok arts =>
        rw [ha] at h
        cases h
        exact ⟨vars, opts, arts, rfl, rfl, rfl, rfl⟩

/-- Inversion of a successful destination-path-draft build. -/
theorem buildManifestD_ok_elim {um : Unmarshal} {p : Package}
    {files : List PackageFile} {deps : List PackageDep}
    {hooks : List PackageHook} {questions : List PackageQuestion} {mD : ManifestD}
    (h : BuildManifestD um (some p) files deps hooks questions = .ok mD) :
    ∃ vars opts,
      parseJsonField um p.vars "variables" = .ok vars ∧
      parseJsonField um p.options "options" = .ok opts ∧
      mD = { id := p.id, name := p.name, version := p.version,
             description := p.description.getD "",
             author := p.author.getD "", license := p.license.getD "",
             tags := p.TagsList,
             minClaudeVersion := p.minClaudeVer.getD "",
             installScope := if p.installScope ≠ "any" then p.installScope else "",
             vars := vars, options := opts, sha256 := p.sha256,
             artifacts := if files = [] then none else some (buildArtifactsD files),
             requires := buildRequires deps, hooks := buildHooks hooks,
             questions := buildQuestionsD questions } := by
  simp only [BuildManifestD] at h
  cases hv : parseJsonField um p.vars "variables" with
  | error e => rw [hv] at h; cases h
  | ok vars =>
    rw [hv] at h
    cases ho : parseJsonField um p.options "options" with
    | error e => rw [ho] at h; cases h
    | ok opts =>
      rw [ho] at h
      cases h
      exact ⟨vars, opts, rfl, rfl, rfl⟩

/-- Building a file entry reads every field except the raw content. -/
theorem mkManifestFile_congr {um : Unmarshal} {f g : PackageFile}
    (h : SameExceptContent f g) : mkManifestFile um f = mkManifestFile um g := by
  obtain ⟨_, h2, h3, h4, h5, h6, h7⟩ := h
  unfold mkManifestFile
  rw [h2, h3, h4, h5, h6, h7]

/-- The rich draft's files loop reads every field except the raw content. -/
theorem buildArtifacts_congr (um : Unmarshal) {files1 files2 : List PackageFile}
    (h : List.Forall₂ SameExceptContent files1 files2) :
    ∀ acc, buildArtifacts um files1 acc = buildArtifacts um files2 acc := by
  induction h with
  | nil => intro acc; rfl
  | cons hfg _ ih =>
    intro acc
    unfold buildArtifacts
    rw [mkManifestFile_congr hfg, hfg.2.2.2.1]
    cases mkManifestFile um _ with
    | error e => rfl
    | ok mf => exact ih _

/-- The destination-path draft's files loop reads only the file type and
the destination path. -/
theorem buildArtifactsD_congr {files1 files2 : List PackageFile}
    (h : List.Forall₂ SameExceptContent files1 files2) :
    buildArtifactsD files1 = buildArtifactsD files2 := by
  unfold buildArtifactsD
  suffices hs : ∀ acc, files1.foldl
      (fun acc f =>
        match lookupKey fileTypePluralKeyD f.fileType with
        | none => acc
        | some key => groupAppend acc key f.destPath) acc
      = files2.foldl
        (fun acc f =>
          match lookupKey fileTypePluralKeyD f.fileType with
          | none => acc
          | some key => groupAppend acc key f.destPath) acc by
    exact hs []
  induction h with
  | nil => intro acc; rfl
  | cons hfg _ ih =>
    intro acc
    rw [List.foldl_cons, List.foldl_cons, hfg.2.2.2.1, hfg.2.1]
    exact ih _

/-- Pointwise content-only differences leave list emptiness unchanged. -/
theorem forall₂_nil_iff {files1 files2 : List PackageFile}
    (h : List.Forall₂ SameExceptContent files1 files2) :
    files1 = [] ↔ files2 = [] := by
  cases h <;> simp

/-! Claims. -/

/-- C5: for every combination of decoder, file, dependency, hook and
question arguments, building with an absent package fails with the
`InvalidInput` error `building manifest: package is nil` and no manifest
value; the result does not depend on any other argument, so the check
precedes their inspection.  Both embedded drafts behave identically. -/
theorem buildManifest_nil_package (um : Unmarshal) (files : List PackageFile)
    (deps : List PackageDep) (hooks : List PackageHook)
    (questions : List PackageQuestion) :
    BuildManifest um none files deps hooks questions
      = .error "building manifest: package is nil" ∧
    BuildManifestD um none files deps hooks questions
      = .error "building manifest: package is nil" :=
  ⟨rfl, rfl⟩

/-- C3: on a successful build, an install scope equal to the sentinel
`any` leaves the manifest's install-scope field empty, and every other
value is copied verbatim. -/
theorem buildManifest_installScope (um : Unmarshal) (p : Package)
    (files : List PackageFile) (deps : List PackageDep)
    (hooks : List PackageHook) (questions : List PackageQuestion) (m : Manifest)
    (h : BuildManifest um (some p) files deps hooks questions = .ok m) :
    (p.installScope = "any" → m.installScope = "") ∧
    (p.installScope ≠ "any" → m.installScope = p.installScope) := by
  obtain ⟨vars, opts, arts, -, -, -, hm⟩ := buildManifest_ok_elim h
  subst hm
  constructor
  · intro hs
    simp [hs]
  · intro hs
    simp [hs]

/-- Witness for C3 at a concrete input with scope `any`. -/
theorem buildManifest_installScope_witness :
    BuildManifest umOk (some basePackage) [] [] [] [] = .ok manifestBase ∧
    ((basePackage.installScope = "any" → manifestBase.installScope = "") ∧
     (basePackage.installScope ≠ "any" →
       manifestBase.installScope = basePackage.installScope)) :=
  ⟨by decide,
   buildManifest_installScope umOk basePackage [] [] [] [] manifestBase (by decide)⟩

/-- C2: on a successful build, the requirements list is exactly the
tool-type dependencies, in input order, unsorted and undeduplicated, each
formatted as the bare name when the trimmed version spec is empty and as
name, one space, trimmed spec otherwise. -/
theorem buildManifest_requires (um : Unmarshal) (p : Package)
    (files : List PackageFile) (deps : List PackageDep)
    (hooks : List PackageHook) (questions : List PackageQuestion) (m : Manifest)
    (h : BuildManifest um (some p) files deps hooks questions = .ok m) :
    m.requires = specRequires deps := by
  obtain ⟨vars, opts, arts, -, -, -, hm⟩ := buildManifest_ok_elim h
  subst hm
  exact buildRequires_eq deps

/-- Witness for C2 at the spec's concrete dependency scenario. -/
theorem buildManifest_requires_witness :
    BuildManifest umOk (some basePackage) [] [depToolX, depToolY, depCliZ] [] []
      = .ok manifestDeps ∧
    manifestDeps.requires = specRequires [depToolX, depToolY, depCliZ] :=
  ⟨by decide,
   buildManifest_requires umOk basePackage [] [depToolX, depToolY, depCliZ] [] []
     manifestDeps (by decide)⟩

/-- C1: on a successful build, an empty file collection leaves the
artifacts field unset; a non-empty collection yields a present artifacts
map in which, for every file type with a known plural key, the group under
that key is exactly the entries of the files of that type, in input order
(so each such file is placed exactly once, under its plural key). -/
theorem buildManifest_artifacts_grouping (um : Unmarshal) (p : Package)
    (files : List PackageFile) (deps : List PackageDep)
    (hooks : List PackageHook) (questions : List PackageQuestion) (m : Manifest)
    (h : BuildManifest um (some p) files deps hooks questions = .ok m) :
    (files = [] → m.artifacts = none) ∧
    (files ≠ [] → ∃ A, m.artifacts = some A ∧
      (∀ k, groupGet A k
        = (files.filter (fun f => artifactKey f.fileType = k)).map (mfOf um)) ∧
      ∀ t pk, lookupKey fileTypePluralKey t = some pk →
        groupGet A pk = (files.filter (fun f => f.fileType = t)).map (mfOf um)) := by
  obtain ⟨vars, opts, arts, -, -, ha, hm⟩ := buildManifest_ok_elim h
  subst hm
  constructor
  · intro h0
    simp [h0]
  · intro h0
    refine ⟨arts, by simp [h0], ?_, ?_⟩
    · intro k
      have hkey := buildArtifacts_get um files [] arts ha k
      rw [hkey]
      simp [groupGet]
    intro t pk hpk
    have hkey := buildArtifacts_get um files [] arts ha pk
    have hpk2 : pk = t ++ "s" := by
      have hak : artifactKey t = pk := by
        unfold artifactKey
        rw [hpk]
      rw [artifactKey_eq] at hak
      exact hak.symm
    have hfilter : files.filter (fun f => artifactKey f.fileType = pk)
        = files.filter (fun f => f.fileType = t) := by
      apply List.filter_congr
      intro f _
      apply decide_eq_decide.mpr
      constructor
      · intro hf
        rw [artifactKey_eq, hpk2] at hf
        exact append_s_cancel hf
      · intro hf
        rw [artifactKey_eq, hf, hpk2]
    rw [hkey, hfilter]
    simp [groupGet]

/-- Witness for C1 at a three-file input covering a known type, another
known type and the config type. -/
theorem buildManifest_artifacts_grouping_witness :
    BuildManifest umOk (some basePackage) [skillFile, agentFile, configFile] [] [] []
      = .ok manifestFiles ∧
    ((([skillFile, agentFile, configFile] : List PackageFile) = [] →
        manifestFiles.artifacts = none) ∧
     (([skillFile, agentFile, configFile] : List PackageFile) ≠ [] →
        ∃ A, manifestFiles.artifacts = some A ∧
          (∀ k, groupGet A k
            = (([skillFile, agentFile, configFile] : List PackageFile).filter
                (fun f => artifactKey f.fileType = k)).map (mfOf umOk)) ∧
          ∀ t pk, lookupKey fileTypePluralKey t = some pk →
            groupGet A pk
              = (([skillFile, agentFile, configFile] : List PackageFile).filter
                  (fun f => f.fileType = t)).map (mfOf umOk))) :=
  ⟨by decide,
   buildManifest_artifacts_grouping umOk basePackage [skillFile, agentFile, configFile]
     [] [] [] manifestFiles (by decide)⟩

/-- C4: a variables blob that fails to decode aborts the build with an
error naming `variables`; with variables fine, an options blob that fails
to decode aborts with an error naming `options`; with both fine, the
first file whose frontmatter fails to decode aborts with an error naming
its destination path.  In every case the result is the bare error — no
partial manifest is produced and no bad element is skipped.  (In this
draft a question's choice list is parsed by the total comma normalizer
`ChoicesList` and can never fail.) -/
theorem buildManifest_parse_failure (um : Unmarshal) (p : Package)
    (files : List PackageFile) (deps : List PackageDep)
    (hooks : List PackageHook) (questions : List PackageQuestion) :
    (∀ e, p.vars ≠ "" → p.vars ≠ "null" → um p.vars = .error e →
      BuildManifest um (some p) files deps hooks questions
        = .error ("building manifest: parsing variables: " ++ e)) ∧
    (∀ e vars, parseJsonField um p.vars "variables" = .ok vars →
      p.options ≠ "" → p.options ≠ "null" → um p.options = .error e →
      BuildManifest um (some p) files deps hooks questions
        = .error ("building manifest: parsing options: " ++ e)) ∧
    (∀ e vars opts pre f post,
      parseJsonField um p.vars "variables" = .ok vars →
      parseJsonField um p.options "options" = .ok opts →
      files = pre ++ f :: post →
      (∀ g ∈ pre, ∃ mf, mkManifestFile um g = .ok mf) →
      f.frontmatter ≠ "" → f.frontmatter ≠ "null" →
      um f.frontmatter = .error e →
      BuildManifest um (some p) files deps hooks questions
        = .error ("building manifest: parsing frontmatter for " ++ f.destPath ++ ": " ++ e)) := by
  refine ⟨?_, ?_, ?_⟩
  · intro e h1 h2 hum
    have hv : parseJsonField um p.vars "variables"
        = .error ("building manifest: parsing variables: " ++ e) := by
      unfold parseJsonField
      rw [if_pos ⟨h1, h2⟩, hum]
      rfl
    simp only [BuildManifest]
    rw [hv]
  · intro e vars hv h1 h2 hum
    have ho : parseJsonField um p.options "options"
        = .error ("building manifest: parsing options: " ++ e) := by
      unfold parseJsonField
      rw [if_pos ⟨h1, h2⟩, hum]
      rfl
    simp only [BuildManifest]
    rw [hv, ho]
  · intro e vars opts pre f post hv ho hfiles hpre h1 h2 hum
    have hmk : mkManifestFile um f
        = .error ("building manifest: parsing frontmatter for " ++ f.destPath ++ ": " ++ e) := by
      simp only [mkManifestFile]
      rw [if_pos ⟨h1, h2⟩, hum]
    have ha := buildArtifacts_error um pre f post [] _ hpre hmk
    simp only [BuildManifest]
    rw [hv, ho, hfiles, ha]

/-- Witness for C4 exercising the variables clause with the always-failing
decoder. -/
theorem buildManifest_parse_failure_witness :
    pkgBadVars.vars ≠ "" ∧ pkgBadVars.vars ≠ "null" ∧
    umFail pkgBadVars.vars = .error "boom" ∧
    BuildManifest umFail (some pkgBadVars) [] [] [] []
      = .error ("building manifest: parsing variables: " ++ "boom") :=
  ⟨by decide, by decide, rfl,
   (buildManifest_parse_failure umFail pkgBadVars [] [] [] []).1 "boom"
     (by decide) (by decide) rfl⟩

/-- `TagsList` agrees with the spec-side split-trim-drop description on
every input (the empty case included, since splitting the empty string
gives one empty piece which is then dropped). -/
theorem tagsList_eq_spec (p : Package) : p.TagsList = specSplitTrimDrop p.tags := by
  unfold Package.TagsList
  by_cases h : p.tags = ""
  · rw [if_pos h, h]
    decide
  · rw [if_neg h, foldl_trim_eq]
    simp [specSplitTrimDrop]

/-- `ChoicesList` agrees with the spec-side split-trim-drop description on
every input. -/
theorem choicesList_eq_spec (q : PackageQuestion) :
    q.ChoicesList = specSplitTrimDrop q.choices := by
  unfold PackageQuestion.ChoicesList
  by_cases h : q.choices = ""
  · rw [if_pos h, h]
    decide
  · rw [if_neg h, foldl_trim_eq]
    simp [specSplitTrimDrop]

/-- C6 counterexample: under the comma convention the literal null marker
is not special-cased — a tags field holding the literal string `null`
parses to the one-element sequence, not to the empty sequence the claim
requires for the null marker. -/
theorem tagsList_null_marker :
    Package.TagsList { basePackage with tags := "null" } = ["null"] ∧
    Package.TagsList { basePackage with tags := "null" } ≠ ([] : List String) := by
  decide

/-- C6 (amended): the comma normalizers return the empty sequence on an
empty raw value and on every raw value return (without ever failing — they
are total functions) the comma-split pieces trimmed, with elements that
become empty dropped and the order of the rest preserved; the literal
string `null` is an ordinary element, not a special marker. -/
theorem parseDelimitedList_comma (p : Package) (q : PackageQuestion) :
    (p.tags = "" → p.TagsList = []) ∧
    p.TagsList = specSplitTrimDrop p.tags ∧
    (q.choices = "" → q.ChoicesList = []) ∧
    q.ChoicesList = specSplitTrimDrop q.choices := by
  refine ⟨?_, tagsList_eq_spec p, ?_, choicesList_eq_spec q⟩
  · intro h
    unfold Package.TagsList
    rw [if_pos h]
  · intro h
    unfold PackageQuestion.ChoicesList
    rw [if_pos h]

/-- Witness for C6 (amended) at a concrete tags field with whitespace and
a trailing comma, and at the empty choices fixture. -/
theorem parseDelimitedList_comma_witness :
    pkgTags.tags ≠ "" ∧
    Package.TagsList pkgTags = specSplitTrimDrop pkgTags.tags ∧
    questionQ2.choices = "" ∧
    PackageQuestion.ChoicesList questionQ2 = [] :=
  ⟨by decide, (parseDelimitedList_comma pkgTags questionQ2).2.1, by decide,
   (parseDelimitedList_comma pkgTags questionQ2).2.2.1 (by decide)⟩

/-- C7 counterexample: the rich draft assigns the parsed choice list
unconditionally, so a question whose choice list parses to the empty
sequence gets a present-but-empty choices field, not an unset one. -/
theorem buildManifest_empty_choices_present :
    (BuildManifest umOk (some basePackage) [] [] [] [questionQ2]).map
        (fun m => m.questions.map (fun mq => mq.choices))
      = .ok [some []] := by
  decide

/-- C7 (amended): in the destination-path draft an empty parsed choice
list leaves the manifest entry's choices field unset and a non-empty one
becomes the entry's choices, as the claim states; in the rich draft the
parsed list is assigned unconditionally, so an empty parse yields a
present-but-empty list (which `omitempty` serializes identically to
unset). -/
theorem buildManifest_choices_fields (um : Unmarshal) (p : Package)
    (files : List PackageFile) (deps : List PackageDep)
    (hooks : List PackageHook) (questions : List PackageQuestion)
    (m : Manifest) (mD : ManifestD)
    (h : BuildManifest um (some p) files deps hooks questions = .ok m)
    (hD : BuildManifestD um (some p) files deps hooks questions = .ok mD) :
    mD.questions.map (fun mq => mq.choices)
      = questions.map (fun q =>
          if q.ChoicesList = [] then none else some q.ChoicesList) ∧
    m.questions.map (fun mq => mq.choices)
      = questions.map (fun q => some q.ChoicesList) := by
  obtain ⟨v1, o1, a1, -, -, -, hm⟩ := buildManifest_ok_elim h
  obtain ⟨v2, o2, -, -, hmD⟩ := buildManifestD_ok_elim hD
  subst hm
  subst hmD
  constructor
  · simp [buildQuestionsD, List.map_map, Function.comp]
  · simp [buildQuestions, List.map_map, Function.comp]

/-- Witness for C7 (amended) at the two question fixtures. -/
theorem buildManifest_choices_fields_witness :
    BuildManifest umOk (some basePackage) [] [] [] [questionQ1, questionQ2]
      = .ok manifestQ ∧
    BuildManifestD umOk (some basePackage) [] [] [] [questionQ1, questionQ2]
      = .ok manifestQD ∧
    (manifestQD.questions.map (fun mq => mq.choices)
       = [questionQ1, questionQ2].map (fun q =>
           if q.ChoicesList = [] then none else some q.ChoicesList) ∧
     manifestQ.questions.map (fun mq => mq.choices)
       = [questionQ1, questionQ2].map (fun q => some q.ChoicesList)) :=
  ⟨by decide, by decide,
   buildManifest_choices_fields umOk basePackage [] [] [] [questionQ1, questionQ2]
     manifestQ manifestQD (by decide) (by decide)⟩

/-- C8: the builder is a pure function of its four row collections and the
package — the embedding exhibits no read of time, randomness or map
iteration order — so two calls on identical inputs return equal results,
and any two successful results are field-for-field identical. -/
theorem buildManifest_deterministic (um : Unmarshal)
    (pkg1 pkg2 : Option Package) (files1 files2 : List PackageFile)
    (deps1 deps2 : List PackageDep) (hooks1 hooks2 : List PackageHook)
    (questions1 questions2 : List PackageQuestion)
    (h1 : pkg1 = pkg2) (h2 : files1 = files2) (h3 : deps1 = deps2)
    (h4 : hooks1 = hooks2) (h5 : questions1 = questions2) :
    BuildManifest um pkg1 files1 deps1 hooks1 questions1
      = BuildManifest um pkg2 files2 deps2 hooks2 questions2 ∧
    ∀ m1 m2, BuildManifest um pkg1 files1 deps1 hooks1 questions1 = .ok m1 →
      BuildManifest um pkg2 files2 deps2 hooks2 questions2 = .ok m2 → m1 = m2 := by
  subst h1
  subst h2
  subst h3
  subst h4
  subst h5
  refine ⟨rfl, ?_⟩
  intro m1 m2 e1 e2
  rw [e1] at e2
  exact Except.ok.inj e2

/-- Witness for C8 at a concrete input. -/
theorem buildManifest_deterministic_witness :
    (some basePackage : Option Package) = some basePackage ∧
    ([skillFile] : List PackageFile) = [skillFile] ∧
    ([depToolX] : List PackageDep) = [depToolX] ∧
    ([] : List PackageHook) = [] ∧
    ([questionQ1] : List PackageQuestion) = [questionQ1] ∧
    (BuildManifest umOk (some basePackage) [skillFile] [depToolX] [] [questionQ1]
       = BuildManifest umOk (some basePackage) [skillFile] [depToolX] [] [questionQ1] ∧
     ∀ m1 m2,
       BuildManifest umOk (some basePackage) [skillFile] [depToolX] [] [questionQ1]
         = .ok m1 →
       BuildManifest umOk (some basePackage) [skillFile] [depToolX] [] [questionQ1]
         = .ok m2 → m1 = m2) :=
  ⟨rfl, rfl, rfl, rfl, rfl,
   buildManifest_deterministic umOk (some basePackage) (some basePackage)
     [skillFile] [skillFile] [depToolX] [depToolX] [] [] [questionQ1] [questionQ1]
     rfl rfl rfl rfl rfl⟩

/-- C9: the manifest never carries a file's raw content — two file
collections that agree on every field except each file's `content` build
identical manifests, in both drafts (and no manifest field has a content
component to carry it in). -/
theorem buildManifest_content_free (um : Unmarshal) (pkg : Option Package)
    (files1 files2 : List PackageFile) (deps : List PackageDep)
    (hooks : List PackageHook) (questions : List PackageQuestion)
    (hrel : List.Forall₂ SameExceptContent files1 files2) :
    BuildManifest um pkg files1 deps hooks questions
      = BuildManifest um pkg files2 deps hooks questions ∧
    BuildManifestD um pkg files1 deps hooks questions
      = BuildManifestD um pkg files2 deps hooks questions := by
  have hart := buildArtifacts_congr um hrel []
  have hartD := buildArtifactsD_congr hrel
  have hemp := forall₂_nil_iff hrel
  cases pkg with
  | none => exact ⟨rfl, rfl⟩
  | some p =>
    constructor
    · simp only [BuildManifest, hart, hemp]
    · simp only [BuildManifestD, hartD, hemp]

/-- Witness for C9 at two one-file collections differing only in raw
content. -/
theorem buildManifest_content_free_witness :
    List.Forall₂ SameExceptContent [skillFile] [skillFileAlt] ∧
    (BuildManifest umOk (some basePackage) [skillFile] [] [] []
       = BuildManifest umOk (some basePackage) [skillFileAlt] [] [] [] ∧
     BuildManifestD umOk (some basePackage) [skillFile] [] [] []
       = BuildManifestD umOk (some basePackage) [skillFileAlt] [] [] []) :=
  ⟨List.Forall₂.cons ⟨rfl, rfl, rfl, rfl, rfl, rfl, rfl⟩ List.Forall₂.nil,
   buildManifest_content_free umOk (some basePackage) [skillFile] [skillFileAlt] [] [] []
     (List.Forall₂.cons ⟨rfl, rfl, rfl, rfl, rfl, rfl, rfl⟩ List.Forall₂.nil)⟩

/-- C10: under the skip-unknown-types policy of the destination-path
draft, a non-empty file collection holding only config-type files yields a
present-but-empty artifacts map, while only the empty file collection
yields an unset artifacts field. -/
theorem buildManifestD_config_only_artifacts :
    (BuildManifestD umOk (some basePackage) [configFile] [] [] []).map
        (fun mD => mD.artifacts)
      = .ok (some []) ∧
    (BuildManifestD umOk (some basePackage) ([] : List PackageFile) [] [] []).map
        (fun mD => mD.artifacts)
      = .ok none := by
  decide

end SynapticCanvas
